import Mathlib

/-!
# AS3935 lightning sensor driver: masked register access and the interrupt latch

A shallow embedding of `firmware/AS3935.cpp`.  The chip is simulated by a register
store: a raw read returns the byte held at the address, a write replaces it.  Every
call of a collaborator (two-wire bus, GPIO, timing) and every store to the `volatile`
member `_interruptWaiting` is appended to an event trace in program order.  Values of type `uint8_t` are natural numbers below 256; `int`
arguments are integers.
-/

namespace AS3935

/-- Calls of the external collaborators and stores to the `volatile` flag
`_interruptWaiting` (`storeInterruptWaiting`), in the order the driver issues them. -/
inductive Event where
  | wireBegin
  | pinMode (pin : Int)
  | attachInterrupt (pin : Int)
  | detachInterrupt (pin : Int)
  | noInterrupts
  | interrupts
  | delay (ms : Nat)
  | beginTransmission (addr : Int)
  | write (byte : Nat)
  | endTransmission (stop : Bool)
  | requestFrom (addr : Int) (quantity : Nat)
  | read
  | storeInterruptWaiting (value : Bool)
  deriving DecidableEq, Repr

/-- The object `AS3935::AS3935` together with the simulated chip and bus it talks to.
`regs` is the simulated register store, `wireEnabled` the answer of `Wire.isEnabled()`,
`trace` the collaborator calls made so far. -/
structure Device where
  _interruptWaiting : Bool
  _interruptPin : Int
  _i2caddr : Int
  regs : Nat → Fin 256
  wireEnabled : Bool
  trace : List Event

/-- Append collaborator calls to the trace. -/
def Device.emit (d : Device) (es : List Event) : Device :=
  { d with trace := d.trace ++ es }

/-- The constructor `AS3935(deviceAddress, intPin)`: it assigns `_i2caddr` and
`_interruptPin` and nothing else.  `_interruptWaiting` has no initialiser, so it keeps
the value `storage` found in the memory the object occupies (`false` for an object of
static storage duration, which is zero-initialised first). -/
def construct (storage : Bool) (regs : Nat → Fin 256) (wireEnabled : Bool)
    (deviceAddress : Nat) (intPin : Int) : Device :=
  { _interruptWaiting := storage
    _interruptPin := intPin
    _i2caddr := (deviceAddress : Int)
    regs := regs
    wireEnabled := wireEnabled
    trace := [] }

/-- The bit pattern of `~x` for an `int` holding a promoted `uint8_t` (32-bit two's
complement). -/
def bitNot (x : Nat) : Nat := 0xFFFFFFFF ^^^ x

/-- Conversion of an `int` to `uint8_t`. -/
def toU8 (n : Int) : Nat := (n % 256).toNat

/-- Conversion of a `bool` to an integer. -/
def ofBool (b : Bool) : Nat := if b then 1 else 0

/-- The loop of `_getShift`: `for (i = 0; ~mask & 1; i++) mask >>= 1;` on `uint8_t`
values, one loop test per unit of fuel; `none` when the fuel runs out before the test
fails. -/
def getShiftLoop : Nat → Nat → Nat → Option Nat
  | 0, _, _ => none
  | fuel + 1, mask, i =>
    if bitNot mask &&& 1 ≠ 0 then getShiftLoop fuel ((mask >>> 1) % 256) ((i + 1) % 256)
    else some i

/-- The function `_getShift(mask)`.  After eight shifts an 8-bit mask is zero and stays
zero, so a loop that has not left after eight tests never leaves: `none` stands for
non-termination (see `getShiftLoop_fuel`). -/
def _getShift (mask : Nat) : Option Nat := getShiftLoop 8 mask 0

/-- The function `_rawRegisterRead(reg)`: address phase without stop, then one byte. -/
def _rawRegisterRead (d : Device) (reg : Nat) : Nat × Device :=
  ((d.regs reg).val % 256,
   d.emit [Event.beginTransmission d._i2caddr, Event.write reg, Event.endTransmission false,
           Event.requestFrom d._i2caddr 1, Event.read])

/-- The function `_registerRead(reg, mask)`. -/
def _registerRead (d : Device) (reg mask : Nat) : Option (Nat × Device) :=
  let (c, d1) := _rawRegisterRead d reg
  let rawReg := (c &&& mask) % 256
  match _getShift mask with
  | none => none
  | some sh => some ((rawReg >>> sh) % 256, d1)

/-- The function `_registerWrite(reg, mask, value)`: read, clear the masked bits, or
in the shifted value, write address and byte.  The simulated chip stores the byte. -/
def _registerWrite (d : Device) (reg mask value : Nat) : Option Device :=
  let (c, d1) := _rawRegisterRead d reg
  let registerValue := (c &&& bitNot mask) % 256
  match _getShift mask with
  | none => none
  | some sh =>
    let registerValue := (registerValue ||| ((value <<< sh) &&& mask)) % 256
    let d2 := d1.emit [Event.beginTransmission d1._i2caddr, Event.write reg,
                       Event.write registerValue, Event.endTransmission true]
    some { d2 with regs := fun r => if r = reg then Fin.ofNat registerValue else d2.regs r }

/-- The overload `_registerWrite(reg, value)`. -/
def _registerWriteByte (d : Device) (reg value : Nat) : Option Device :=
  _registerWrite d reg 0xFF value

/-- The function `begin()`. -/
def begin (d : Device) : Option Device :=
  let d1 := if !d.wireEnabled then { d.emit [Event.wireBegin] with wireEnabled := true } else d
  let d2 := d1.emit [Event.pinMode d1._interruptPin]
  match _registerWrite d2 0x08 0xE0 0x00 with
  | none => none
  | some d3 =>
    let d4 := d3.emit [Event.attachInterrupt d3._interruptPin]
    some { d4.emit [Event.storeInterruptWaiting false] with _interruptWaiting := false }

/-- The function `reset()`. -/
def reset (d : Device) : Option Device :=
  _registerWriteByte d 0x3C 0x96

/-- The function `getInterrupt()`. -/
def getInterrupt (d : Device) : Option (Nat × Device) :=
  let d1 := { d.emit [Event.storeInterruptWaiting false] with _interruptWaiting := false }
  let d2 := d1.emit [Event.delay 3]
  _registerRead d2 0x03 0x0F

/-- The interrupt service routine `_handleInterrupt()`. -/
def _handleInterrupt (d : Device) : Device :=
  { d.emit [Event.storeInterruptWaiting true] with _interruptWaiting := true }

/-- The function `waitingInterrupt()`. -/
def waitingInterrupt (d : Device) : Bool × Device :=
  (d._interruptWaiting, d)

/-- The function `getDistance()`. -/
def getDistance (d : Device) : Option (Nat × Device) :=
  _registerRead d 0x07 0x3F

/-- The function `getNoiseFloor()`. -/
def getNoiseFloor (d : Device) : Option (Nat × Device) :=
  _registerRead d 0x01 0x70

/-- The function `setNoiseFloor(int noiseFloor)`. -/
def setNoiseFloor (d : Device) (noiseFloor : Int) : Option (Bool × Device) :=
  if noiseFloor > 7 ∨ noiseFloor < 0 then some (false, d)
  else
    match _registerWrite d 0x01 0x70 (toU8 noiseFloor) with
    | none => none
    | some d1 =>
      match getNoiseFloor d1 with
      | none => none
      | some (v, d2) => some (decide ((v : Int) = noiseFloor), d2)

/-- The function `raiseNoiseFloor()`. -/
def raiseNoiseFloor (d : Device) : Option (Nat × Device) :=
  match getNoiseFloor d with
  | none => none
  | some (current, d1) =>
    let current := (current + 1) % 256
    match setNoiseFloor d1 (current : Int) with
    | none => none
    | some (_, d2) => getNoiseFloor d2

/-- The function `lowerNoiseFloor()`. -/
def lowerNoiseFloor (d : Device) : Option (Nat × Device) :=
  match getNoiseFloor d with
  | none => none
  | some (current, d1) =>
    let current := (current + 255) % 256
    match setNoiseFloor d1 (current : Int) with
    | none => none
    | some (_, d2) => getNoiseFloor d2

/-- The function `getMinStrikes()`. -/
def getMinStrikes (d : Device) : Option (Nat × Device) :=
  match _registerRead d 0x02 0xCF with
  | none => none
  | some (c, d1) =>
    match c with
    | 0 => some (1, d1)
    | 1 => some (5, d1)
    | 2 => some (9, d1)
    | 3 => some (16, d1)
    | _ => some (255, d1)

/-- The function `setMinStrikes(int minStrikes)`. -/
def setMinStrikes (d : Device) (minStrikes : Int) : Option (Bool × Device) :=
  let regValue : Option Nat :=
    if minStrikes = 1 then some 0
    else if minStrikes = 5 then some 1
    else if minStrikes = 9 then some 2
    else if minStrikes = 16 then some 3
    else none
  match regValue with
  | none => some (false, d)
  | some regValue =>
    match _registerWrite d 0x02 0xCF regValue with
    | none => none
    | some d1 =>
      match getMinStrikes d1 with
      | none => none
      | some (v, d2) => some (decide (v = regValue), d2)

/-- The function `getIndoors()`. -/
def getIndoors (d : Device) : Option (Bool × Device) :=
  match _registerRead d 0x00 0x20 with
  | none => none
  | some (v, d1) => some (decide (v ≠ 0), d1)

/-- The function `setIndoors(bool indoors)`. -/
def setIndoors (d : Device) (indoors : Bool) : Option (Bool × Device) :=
  match (if indoors then _registerWrite d 0x00 0xC1 0x12 else _registerWrite d 0x00 0xC1 0x0E) with
  | none => none
  | some d1 =>
    match getIndoors d1 with
    | none => none
    | some (v, d2) => some (decide (v = indoors), d2)

/-- The function `getMaskDisturbers()`. -/
def getMaskDisturbers (d : Device) : Option (Bool × Device) :=
  match _registerRead d 0x03 0x20 with
  | none => none
  | some (v, d1) => some (decide (v ≠ 0), d1)

/-- The function `setMaskDisturbers(bool maskDisturbers)`. -/
def setMaskDisturbers (d : Device) (maskDisturbers : Bool) : Option (Bool × Device) :=
  match _registerWrite d 0x03 0x20 (ofBool maskDisturbers) with
  | none => none
  | some d1 =>
    match _registerRead d1 0x03 0x20 with
    | none => none
    | some (v, d2) => some (decide (decide (v ≠ 0) = maskDisturbers), d2)

/-- The function `getDispLco()`. -/
def getDispLco (d : Device) : Option (Bool × Device) :=
  match _registerRead d 0x08 0x80 with
  | none => none
  | some (v, d1) => some (decide (v ≠ 0), d1)

/-- The function `setDispLco(bool dispLco)`. -/
def setDispLco (d : Device) (dispLco : Bool) : Option (Bool × Device) :=
  match _registerWrite d 0x08 0x80 (ofBool dispLco) with
  | none => none
  | some d1 =>
    match getDispLco d1 with
    | none => none
    | some (v, d2) => some (decide (v = dispLco), d2)

/-- The function `calibrate(uint8_t tunCap)`. -/
def calibrate (d : Device) (tunCap : Nat) : Option Device :=
  if tunCap < 0x10 ∧ tunCap ≥ 0 then
    let d0 := d.emit [Event.noInterrupts]
    match _registerWrite d0 0x08 0x0F tunCap with
    | none => none
    | some d1 =>
      match _registerWriteByte (d1.emit [Event.delay 2]) 0x3D 0x96 with
      | none => none
      | some d2 =>
        match _registerWrite (d2.emit [Event.delay 2]) 0x08 0x20 1 with
        | none => none
        | some d3 =>
          match _registerWrite (d3.emit [Event.delay 2]) 0x08 0x20 0 with
          | none => none
          | some d4 => some (d4.emit [Event.interrupts])
  else some d

/-- Spec-side notion of a mask: the set bits form one run of `w ≥ 1` bits starting at
bit `lo`, inside a byte. -/
def contiguousMask (m : Nat) : Prop :=
  ∃ lo < 8, ∃ w < 9, 0 < w ∧ lo + w ≤ 8 ∧ m = (2 ^ w - 1) <<< lo

instance (m : Nat) : Decidable (contiguousMask m) := by
  unfold contiguousMask; infer_instance

/-! ## Auxiliary definitions for the statements -/

/-- The bus events of one `_rawRegisterRead(reg)`. -/
def readEvents (d : Device) (reg : Nat) : List Event :=
  [Event.beginTransmission d._i2caddr, Event.write reg, Event.endTransmission false,
   Event.requestFrom d._i2caddr 1, Event.read]

/-- The bus events of the write transaction of `_registerWrite`. -/
def writeEvents (d : Device) (reg byte : Nat) : List Event :=
  [Event.beginTransmission d._i2caddr, Event.write reg, Event.write byte,
   Event.endTransmission true]

/-- The byte `_registerWrite` sends when the register held `c`. -/
def mergeByte (c mask sh value : Nat) : Nat :=
  ((c % 256 &&& bitNot mask) % 256 ||| ((value <<< sh) &&& mask)) % 256

/-- The value `_registerRead` returns when the register holds `c`. -/
def extractField (c mask sh : Nat) : Nat :=
  (((c % 256 &&& mask) % 256) >>> sh) % 256

/-- The handle and chip after one `_rawRegisterRead(reg)`. -/
def afterRead (d : Device) (reg : Nat) : Device :=
  d.emit (readEvents d reg)

/-- The handle and chip after `_registerWrite(reg, mask, value)` when `_getShift(mask)`
returned `sh`. -/
def afterWrite (d : Device) (reg mask sh value : Nat) : Device :=
  { d with
    regs := fun r =>
      if r = reg then Fin.ofNat (mergeByte (d.regs reg).val mask sh value) else d.regs r
    trace := d.trace ++ readEvents d reg ++
      writeEvents d reg (mergeByte (d.regs reg).val mask sh value) }

/-- The `switch` of `getMinStrikes` on the field it read. -/
def decodeStrikes (c : Nat) : Nat :=
  match c with
  | 0 => 1
  | 1 => 5
  | 2 => 9
  | 3 => 16
  | _ => 255

/-- The handle and chip after the tuning-capacitor write of `calibrate(tunCap)`. -/
def calStage1 (d : Device) (tunCap : Nat) : Device :=
  afterWrite (d.emit [Event.noInterrupts]) 0x08 0x0F 0 tunCap

/-- The handle and chip after the write of 0x96 to register 0x3D in `calibrate`. -/
def calStage2 (d : Device) (tunCap : Nat) : Device :=
  afterWrite ((calStage1 d tunCap).emit [Event.delay 2]) 0x3D 0xFF 0 0x96

/-- The handle and chip after `calibrate` has set the field 0x08/0x20 to 1. -/
def calStage3 (d : Device) (tunCap : Nat) : Device :=
  afterWrite ((calStage2 d tunCap).emit [Event.delay 2]) 0x08 0x20 5 1

/-- The handle and chip after `calibrate` has set the field 0x08/0x20 back to 0. -/
def calStage4 (d : Device) (tunCap : Nat) : Device :=
  afterWrite ((calStage3 d tunCap).emit [Event.delay 2]) 0x08 0x20 5 0

/-- The byte register 0x08 holds after `calibrate(t)` when it held `c` before. -/
def calByte (c t : Nat) : Nat :=
  mergeByte (mergeByte (mergeByte c 0x0F 0 t) 0x20 5 1) 0x20 5 0

/-- The calibration sequence in the order the specification words it, with waits of
`w1`, `w2` and `w3` milliseconds: disable interrupts; write the tuning value; write 0x96
to register 0x3D; wait; set field 0x08/0x20 to 1; wait; set it to 0; wait; re-enable
interrupts.  The register accesses are those of the driver; only the places of the
waits are taken from the specification. -/
def calibrateSpec (w1 w2 w3 : Nat) (d : Device) (tunCap : Nat) : Option Device :=
  if tunCap < 0x10 then
    match _registerWrite (d.emit [Event.noInterrupts]) 0x08 0x0F tunCap with
    | none => none
    | some d1 =>
      match _registerWriteByte d1 0x3D 0x96 with
      | none => none
      | some d2 =>
        match _registerWrite (d2.emit [Event.delay w1]) 0x08 0x20 1 with
        | none => none
        | some d3 =>
          match _registerWrite (d3.emit [Event.delay w2]) 0x08 0x20 0 with
          | none => none
          | some d4 => some ((d4.emit [Event.delay w3]).emit [Event.interrupts])
  else some d

/-- A handle in static storage talking to a chip whose registers all hold zero. -/
def zeroDevice : Device := construct false (fun _ => 0) true 0 2

/-- A handle in static storage talking to a chip whose registers all hold `b`. -/
def filledDevice (b : Fin 256) : Device := construct false (fun _ => b) true 0 2

/-! ## The shift loop -/

theorem getShiftLoop_zero_mask (fuel i : Nat) : getShiftLoop fuel 0 i = none := by
  induction fuel generalizing i with
  | zero => rfl
  | succ f ih =>
    have h : bitNot 0 &&& 1 ≠ 0 := by decide
    simp only [getShiftLoop, h, ne_eq, not_false_eq_true, if_true]
    exact ih _

theorem getShiftLoop_succ (fuel mask i k : Nat) (h : getShiftLoop fuel mask i = some k) :
    getShiftLoop (fuel + 1) mask i = some k := by
  induction fuel generalizing mask i with
  | zero => simp [getShiftLoop] at h
  | succ f ih =>
    rw [getShiftLoop] at h
    rw [getShiftLoop]
    split
    · rename_i hc
      rw [if_pos hc] at h
      exact ih _ _ h
    · rename_i hc
      rw [if_neg hc] at h
      exact h

theorem getShiftLoop_mono (fuel extra mask i k : Nat) (h : getShiftLoop fuel mask i = some k) :
    getShiftLoop (fuel + extra) mask i = some k := by
  induction extra with
  | zero => exact h
  | succ e ih => exact getShiftLoop_succ _ _ _ _ ih

set_option maxRecDepth 100000 in
theorem getShiftLoop_eight :
    ∀ mask < 256, mask ≠ 0 →
      ∃ k < 8, getShiftLoop 8 mask 0 = some k ∧ mask.testBit k = true ∧
        ∀ j < k, mask.testBit j = false := by
  decide

theorem getShiftLoop_fuel (fuel mask : Nat) (hf : 8 ≤ fuel) (hm : mask < 256) :
    getShiftLoop fuel mask 0 = getShiftLoop 8 mask 0 := by
  obtain ⟨e, rfl⟩ : ∃ e, fuel = 8 + e := ⟨fuel - 8, by omega⟩
  by_cases h0 : mask = 0
  · subst h0
    rw [getShiftLoop_zero_mask, getShiftLoop_zero_mask]
  · obtain ⟨k, _, hk, _⟩ := getShiftLoop_eight mask hm h0
    rw [hk]
    exact getShiftLoop_mono 8 e mask 0 k hk

theorem getShift_some (mask : Nat) (h0 : mask ≠ 0) (hm : mask < 256) :
    ∃ k < 8, _getShift mask = some k ∧ mask.testBit k = true ∧
      ∀ j < k, mask.testBit j = false :=
  getShiftLoop_eight mask hm h0

/-! ## Masked access on the simulated store -/

theorem registerRead_eq (d : Device) (reg mask sh : Nat) (h : _getShift mask = some sh) :
    _registerRead d reg mask =
      some (extractField (d.regs reg).val mask sh, afterRead d reg) := by
  simp [_registerRead, _rawRegisterRead, h, extractField, readEvents, afterRead]

theorem registerWrite_eq (d : Device) (reg mask value sh : Nat)
    (h : _getShift mask = some sh) :
    _registerWrite d reg mask value = some (afterWrite d reg mask sh value) := by
  simp [_registerWrite, _rawRegisterRead, h, mergeByte, readEvents, writeEvents, Device.emit,
    afterWrite]

theorem testBit_byte_high (c i : Nat) (hc : c < 256) (hi : 8 ≤ i) : c.testBit i = false := by
  apply Nat.testBit_lt_two_pow
  calc c < 2 ^ 8 := hc
    _ ≤ 2 ^ i := Nat.pow_le_pow_right (by decide) hi

theorem testBit_mergeByte (c mask sh value i : Nat) (hm : mask < 256) :
    (mergeByte c mask sh value).testBit i =
      if mask.testBit i then (value <<< sh).testBit i else (c % 256).testBit i := by
  have h256 : (256 : Nat) = 2 ^ 8 := rfl
  have hff : (0xFFFFFFFF : Nat) = 2 ^ 32 - 1 := rfl
  unfold mergeByte bitNot
  rw [hff, h256]
  simp only [Nat.testBit_mod_two_pow, Nat.testBit_or, Nat.testBit_and, Nat.testBit_xor,
    Nat.testBit_two_pow_sub_one]
  by_cases hi : i < 8
  · have hi32 : i < 32 := by omega
    cases hmb : mask.testBit i <;> simp [hi, hi32]
  · have hmb : mask.testBit i = false := testBit_byte_high mask i hm (by omega)
    simp [hi, hmb]

theorem mergeByte_lt (c mask sh value : Nat) : mergeByte c mask sh value < 256 := by
  unfold mergeByte
  exact Nat.mod_lt _ (by decide)

theorem mergeByte_and_mask (c mask sh value : Nat) (hm : mask < 256) :
    mergeByte c mask sh value &&& mask = (value <<< sh) &&& mask := by
  apply Nat.eq_of_testBit_eq
  intro i
  rw [Nat.testBit_and, Nat.testBit_and, testBit_mergeByte c mask sh value i hm]
  cases mask.testBit i <;> simp

theorem extractField_mergeByte (c mask sh value : Nat) (hm : mask < 256) :
    extractField (Fin.ofNat (mergeByte c mask sh value) : Fin 256).val mask sh =
      ((((value <<< sh) &&& mask) % 256) >>> sh) % 256 := by
  have hlt := mergeByte_lt c mask sh value
  have hval : (Fin.ofNat (mergeByte c mask sh value) : Fin 256).val
      = mergeByte c mask sh value := by
    show mergeByte c mask sh value % 256 = _
    exact Nat.mod_eq_of_lt hlt
  rw [hval]
  unfold extractField
  rw [Nat.mod_eq_of_lt hlt, mergeByte_and_mask c mask sh value hm]

set_option maxRecDepth 100000 in
set_option synthInstance.maxSize 1000 in
theorem run_field_fits :
    ∀ lo < 8, ∀ w < 9, 0 < w → lo + w ≤ 8 → ∀ sh < 8,
      _getShift ((2 ^ w - 1) <<< lo) = some sh → ∀ V < 256, V ≤ ((2 ^ w - 1) <<< lo) >>> sh →
        (((((V <<< sh) &&& ((2 ^ w - 1) <<< lo)) % 256) >>> sh) % 256 = V) := by
  decide

theorem contiguous_field_fits (M sh V : Nat) (hc : contiguousMask M)
    (hsh : _getShift M = some sh) (hs8 : sh < 8) (hV8 : V < 256) (hV : V ≤ M >>> sh) :
    ((((V <<< sh) &&& M) % 256) >>> sh) % 256 = V := by
  obtain ⟨lo, hlo, w, hw, hw0, hlw, rfl⟩ := hc
  exact run_field_fits lo hlo w hw hw0 hlw sh hs8 hsh V hV8 hV

/-! ## Claims on the masked accessor -/

/-- C3: for every 8-bit mask other than zero the loop of `_getShift` leaves with enough
fuel (eight tests, and any larger number) and returns the index `k` of the lowest set
bit of the mask: bit `k` is set and every bit below it is clear.  It returns 4 for
0xF0, 0 for 0x01 and 0 for 0xC1. -/
theorem getShift_lowest_set_bit (mask : Nat) (h0 : mask ≠ 0) (hm : mask < 256) :
    (∃ k < 8, _getShift mask = some k ∧ (∀ fuel, 8 ≤ fuel → getShiftLoop fuel mask 0 = some k) ∧
        mask.testBit k = true ∧ ∀ j < k, mask.testBit j = false) ∧
      _getShift 0xF0 = some 4 ∧ _getShift 0x01 = some 0 ∧ _getShift 0xC1 = some 0 := by
  obtain ⟨k, hk8, hk, hbit, hlow⟩ := getShift_some mask h0 hm
  refine ⟨⟨k, hk8, hk, ?_, hbit, hlow⟩, by decide, by decide, by decide⟩
  intro fuel hf
  rw [getShiftLoop_fuel fuel mask hf hm]
  exact hk

theorem getShift_lowest_set_bit_witness :
    (∃ k < 8, _getShift 0x70 = some k ∧
        (∀ fuel, 8 ≤ fuel → getShiftLoop fuel 0x70 0 = some k) ∧
        (0x70 : Nat).testBit k = true ∧ ∀ j < k, (0x70 : Nat).testBit j = false) ∧
      _getShift 0xF0 = some 4 ∧ _getShift 0x01 = some 0 ∧ _getShift 0xC1 = some 0 :=
  getShift_lowest_set_bit 0x70 (by decide) (by decide)

/-- C1: on the simulated store, for every register address `R`, every mask `M ≠ 0`
whose set bits form one contiguous run and every value `V ≤ M >> _getShift(M)`,
`_registerRead(R, M)` run immediately after `_registerWrite(R, M, V)` returns `V`. -/
theorem registerRead_after_registerWrite (d : Device) (R M V : Nat)
    (hM0 : M ≠ 0) (hM : M < 256) (hc : contiguousMask M)
    (hV : ∃ sh, _getShift M = some sh ∧ V ≤ M >>> sh) :
    (_registerWrite d R M V).bind (fun d1 => (_registerRead d1 R M).map Prod.fst) = some V := by
  obtain ⟨sh, hsh, hVle⟩ := hV
  obtain ⟨k, hk8, hk, -, -⟩ := getShift_some M hM0 hM
  have hks : k = sh := by
    rw [hsh] at hk
    exact (Option.some.inj hk).symm
  subst hks
  have hV8 : V < 256 :=
    Nat.lt_of_le_of_lt (Nat.le_trans hVle (by
      rw [Nat.shiftRight_eq_div_pow]; exact Nat.div_le_self _ _)) hM
  rw [registerWrite_eq d R M V k hsh]
  simp only [Option.some_bind]
  rw [registerRead_eq _ R M k hsh]
  simp only [Option.map_some', afterWrite, if_true, extractField_mergeByte _ M k V hM]
  rw [contiguous_field_fits M k V hc hsh hk8 hV8 hVle]

theorem registerRead_after_registerWrite_witness :
    (_registerWrite zeroDevice 0x01 0x70 5).bind
      (fun d1 => (_registerRead d1 0x01 0x70).map Prod.fst) = some 5 :=
  registerRead_after_registerWrite zeroDevice 0x01 0x70 5 (by decide) (by decide)
    (by decide) ⟨4, by decide, by decide⟩

/-- C2: on the simulated store, for every register `R`, every mask `M ≠ 0` and every
byte `V` (also one wider than the field), `_registerWrite(R, M, V)` returns, the byte
then stored at `R` agrees with the byte stored before on every bit position not set in
`M`, every other register holds the byte it held before, and the interrupt-pending flag
is unchanged. -/
theorem registerWrite_preserves_outside_mask (d : Device) (R M V : Nat)
    (hM0 : M ≠ 0) (hM : M < 256) :
    ∃ d1, _registerWrite d R M V = some d1 ∧
      (∀ i, M.testBit i = false → (d1.regs R).val.testBit i = (d.regs R).val.testBit i) ∧
      (∀ r, r ≠ R → d1.regs r = d.regs r) ∧
      d1._interruptWaiting = d._interruptWaiting := by
  obtain ⟨k, -, hk, -, -⟩ := getShift_some M hM0 hM
  refine ⟨_, registerWrite_eq d R M V k hk, ?_, ?_, rfl⟩
  · intro i hi
    simp only [afterWrite, if_true]
    have hval : (Fin.ofNat (mergeByte (d.regs R).val M k V) : Fin 256).val
        = mergeByte (d.regs R).val M k V := by
      show mergeByte (d.regs R).val M k V % 256 = _
      exact Nat.mod_eq_of_lt (mergeByte_lt _ _ _ _)
    rw [hval, testBit_mergeByte _ M k V i hM, hi, Nat.mod_eq_of_lt (d.regs R).isLt]
    simp
  · intro r hr
    simp only [afterWrite, if_neg hr]

theorem registerWrite_preserves_outside_mask_witness :
    ∃ d1, _registerWrite zeroDevice 0x02 0xCF 0xFF = some d1 ∧
      (∀ i, (0xCF : Nat).testBit i = false →
        (d1.regs 0x02).val.testBit i = (zeroDevice.regs 0x02).val.testBit i) ∧
      (∀ r, r ≠ 0x02 → d1.regs r = zeroDevice.regs r) ∧
      d1._interruptWaiting = zeroDevice._interruptWaiting :=
  registerWrite_preserves_outside_mask zeroDevice 0x02 0xCF 0xFF (by decide) (by decide)

/-! ## Noise floor -/

theorem getShift_noise : _getShift 0x70 = some 4 := by decide

theorem ofNat_mergeByte_val (c mask sh value : Nat) :
    (Fin.ofNat (mergeByte c mask sh value) : Fin 256).val = mergeByte c mask sh value := by
  show mergeByte c mask sh value % 256 = _
  exact Nat.mod_eq_of_lt (mergeByte_lt _ _ _ _)

theorem mergeByte_and_compl (c mask sh value : Nat) (hc : c < 256) (hm : mask < 256) :
    mergeByte c mask sh value &&& (0xFF ^^^ mask) = c &&& (0xFF ^^^ mask) := by
  apply Nat.eq_of_testBit_eq
  intro i
  rw [Nat.testBit_and, Nat.testBit_and, testBit_mergeByte c mask sh value i hm,
    Nat.mod_eq_of_lt hc, Nat.testBit_xor]
  by_cases hi : i < 8
  · have h255 : (255 : Nat) = 2 ^ 8 - 1 := rfl
    rw [h255, Nat.testBit_two_pow_sub_one]
    cases mask.testBit i <;> simp [hi]
  · rw [testBit_byte_high 255 i (by decide) (by omega),
      testBit_byte_high mask i hm (by omega)]
    simp

theorem getNoiseFloor_eq (d : Device) :
    getNoiseFloor d = some (extractField (d.regs 0x01).val 0x70 4, afterRead d 0x01) :=
  registerRead_eq d 0x01 0x70 4 getShift_noise

set_option maxRecDepth 100000 in
theorem noise_field_lt : ∀ c < 256, extractField c 0x70 4 < 8 := by
  decide

theorem noise_fits : ∀ k < 8, ((((k <<< 4) &&& 0x70) % 256) >>> 4) % 256 = k := by
  decide

theorem noise_after_write (d : Device) (k : Nat) (hk : k < 8) :
    extractField ((afterWrite d 0x01 0x70 4 k).regs 0x01).val 0x70 4 = k := by
  simp only [afterWrite, if_true]
  rw [extractField_mergeByte _ 0x70 4 k (by decide)]
  exact noise_fits k hk

theorem setNoiseFloor_in_range (d : Device) (k : Nat) (hk : k < 8) :
    setNoiseFloor d (k : Int) =
      some (true, afterRead (afterWrite d 0x01 0x70 4 k) 0x01) := by
  have hguard : ¬ ((k : Int) > 7 ∨ (k : Int) < 0) := by omega
  have hu8 : toU8 (k : Int) = k := by
    unfold toU8
    omega
  unfold setNoiseFloor
  rw [if_neg hguard, hu8, registerWrite_eq d 0x01 0x70 k 4 getShift_noise]
  simp only [getNoiseFloor_eq, noise_after_write d k hk, decide_True]

theorem setNoiseFloor_rejects (d : Device) (n : Int) (h : n > 7 ∨ n < 0) :
    setNoiseFloor d n = some (false, d) := by
  unfold setNoiseFloor
  rw [if_pos h]

/-- C4: on the simulated store, for every `int n`: when `0 ≤ n ≤ 7`,
`setNoiseFloor(n)` returns true, `getNoiseFloor()` afterwards returns `n`, and the bits
of register 0x01 outside mask 0x70 (those of 0x8F) are as before; when `n < 0` or
`n > 7`, `setNoiseFloor(n)` returns false and handle and register store are exactly as
before. -/
theorem setNoiseFloor_contract (d : Device) (n : Int) :
    (0 ≤ n ∧ n ≤ 7 →
      ∃ d1, setNoiseFloor d n = some (true, d1) ∧
        (getNoiseFloor d1).map (fun r => (r.1 : Int)) = some n ∧
        (d1.regs 0x01).val &&& 0x8F = (d.regs 0x01).val &&& 0x8F) ∧
    (n < 0 ∨ n > 7 → setNoiseFloor d n = some (false, d)) := by
  constructor
  · rintro ⟨h0, h7⟩
    obtain ⟨k, rfl⟩ : ∃ k : Nat, n = (k : Int) := ⟨n.toNat, by omega⟩
    have hk : k < 8 := by omega
    refine ⟨_, setNoiseFloor_in_range d k hk, ?_, ?_⟩
    · rw [getNoiseFloor_eq]
      simp only [Option.map_some']
      have h := noise_after_write d k hk
      simp only [afterRead, Device.emit] at h ⊢
      rw [h]
    · show ((afterWrite d 0x01 0x70 4 k).regs 0x01).val &&& (0xFF ^^^ 0x70) = _
      simp only [afterWrite, if_true]
      rw [ofNat_mergeByte_val]
      exact mergeByte_and_compl _ 0x70 4 k (d.regs 0x01).isLt (by decide)
  · intro h
    exact setNoiseFloor_rejects d n (by omega)

theorem setNoiseFloor_contract_witness :
    (∃ d1, setNoiseFloor zeroDevice 5 = some (true, d1) ∧
        (getNoiseFloor d1).map (fun r => (r.1 : Int)) = some 5 ∧
        (d1.regs 0x01).val &&& 0x8F = (zeroDevice.regs 0x01).val &&& 0x8F) ∧
      setNoiseFloor zeroDevice 8 = some (false, zeroDevice) :=
  ⟨(setNoiseFloor_contract zeroDevice 5).1 ⟨by decide, by decide⟩,
   (setNoiseFloor_contract zeroDevice 8).2 (Or.inr (by decide))⟩

theorem getNoiseFloor_fst (d : Device) :
    (getNoiseFloor d).map Prod.fst = some (extractField (d.regs 0x01).val 0x70 4) := by
  rw [getNoiseFloor_eq]
  rfl

theorem raiseNoiseFloor_below (d : Device) (n : Nat) (hn : n < 7)
    (h : extractField (d.regs 0x01).val 0x70 4 = n) :
    raiseNoiseFloor d = some (n + 1,
      afterRead (afterRead (afterWrite (afterRead d 0x01) 0x01 0x70 4 (n + 1)) 0x01) 0x01) := by
  have hcur : (n + 1) % 256 = n + 1 := by omega
  unfold raiseNoiseFloor
  rw [getNoiseFloor_eq]
  simp only [h, hcur]
  rw [setNoiseFloor_in_range _ (n + 1) (by omega)]
  simp only []
  rw [getNoiseFloor_eq]
  have hr := noise_after_write (afterRead d 0x01) (n + 1) (by omega)
  simp only [afterRead, Device.emit] at hr ⊢
  rw [hr]

theorem raiseNoiseFloor_top (d : Device) (h : extractField (d.regs 0x01).val 0x70 4 = 7) :
    raiseNoiseFloor d = some (7, afterRead (afterRead d 0x01) 0x01) := by
  unfold raiseNoiseFloor
  rw [getNoiseFloor_eq]
  simp only [h]
  rw [setNoiseFloor_rejects _ _ (Or.inl (by decide))]
  simp only []
  rw [getNoiseFloor_eq]
  simp only [afterRead, Device.emit] at h ⊢
  rw [h]

theorem lowerNoiseFloor_above (d : Device) (n : Nat) (hn : n < 7)
    (h : extractField (d.regs 0x01).val 0x70 4 = n + 1) :
    lowerNoiseFloor d = some (n,
      afterRead (afterRead (afterWrite (afterRead d 0x01) 0x01 0x70 4 n) 0x01) 0x01) := by
  have hcur : (n + 1 + 255) % 256 = n := by omega
  unfold lowerNoiseFloor
  rw [getNoiseFloor_eq]
  simp only [h, hcur]
  rw [setNoiseFloor_in_range _ n (by omega)]
  simp only []
  rw [getNoiseFloor_eq]
  have hr := noise_after_write (afterRead d 0x01) n (by omega)
  simp only [afterRead, Device.emit] at hr ⊢
  rw [hr]

theorem lowerNoiseFloor_bottom (d : Device) (h : extractField (d.regs 0x01).val 0x70 4 = 0) :
    lowerNoiseFloor d = some (0, afterRead (afterRead d 0x01) 0x01) := by
  unfold lowerNoiseFloor
  rw [getNoiseFloor_eq]
  simp only [h]
  rw [setNoiseFloor_rejects _ _ (Or.inl (by decide))]
  simp only []
  rw [getNoiseFloor_eq]
  simp only [afterRead, Device.emit] at h ⊢
  rw [h]

/-- C5: saturating step of the noise floor on the simulated store.  When
`getNoiseFloor()` is `n` beforehand, `raiseNoiseFloor()` returns `min (n + 1) 7` and
`lowerNoiseFloor()` returns `max (n - 1) 0`, and `getNoiseFloor()` afterwards gives the
returned value.  At floor 7 `raiseNoiseFloor()` returns 7 and at floor 0
`lowerNoiseFloor()` returns 0 (the 8-bit decrement of 0 is 255, which `setNoiseFloor`
rejects), in both cases with the register store unchanged. -/
theorem noiseFloor_step (d : Device) (n : Nat)
    (h : (getNoiseFloor d).map Prod.fst = some n) :
    (∃ d1, raiseNoiseFloor d = some (min (n + 1) 7, d1) ∧
        (getNoiseFloor d1).map Prod.fst = some (min (n + 1) 7)) ∧
    (∃ v d1, lowerNoiseFloor d = some (v, d1) ∧ (v : Int) = max ((n : Int) - 1) 0 ∧
        (getNoiseFloor d1).map Prod.fst = some v) ∧
    (n = 7 → ∃ d1, raiseNoiseFloor d = some (7, d1) ∧ d1.regs = d.regs) ∧
    (n = 0 → (∃ d1, lowerNoiseFloor d = some (0, d1) ∧ d1.regs = d.regs) ∧
        (0 + 255) % 256 = 255 ∧ ∀ e : Device, setNoiseFloor e (255 : Nat) = some (false, e)) := by
  rw [getNoiseFloor_fst] at h
  have hn : extractField (d.regs 0x01).val 0x70 4 = n := Option.some.inj h
  have hlt : n < 8 := by
    rw [← hn]
    exact noise_field_lt _ (d.regs 0x01).isLt
  refine ⟨?_, ?_, ?_, ?_⟩
  · by_cases h7 : n < 7
    · have hmin : min (n + 1) 7 = n + 1 := by omega
      rw [hmin]
      refine ⟨_, raiseNoiseFloor_below d n h7 hn, ?_⟩
      rw [getNoiseFloor_fst]
      exact congrArg some (noise_after_write (afterRead d 0x01) (n + 1) (by omega))
    · have h7e : n = 7 := by omega
      subst h7e
      refine ⟨_, raiseNoiseFloor_top d hn, ?_⟩
      rw [getNoiseFloor_fst]
      exact congrArg some hn
  · cases n with
    | zero =>
      refine ⟨0, _, lowerNoiseFloor_bottom d hn, by decide, ?_⟩
      rw [getNoiseFloor_fst]
      exact congrArg some hn
    | succ m =>
      refine ⟨m, _, lowerNoiseFloor_above d m (by omega) hn, by omega, ?_⟩
      rw [getNoiseFloor_fst]
      exact congrArg some (noise_after_write (afterRead d 0x01) m (by omega))
  · intro h7
    subst h7
    exact ⟨_, raiseNoiseFloor_top d hn, rfl⟩
  · intro h0
    subst h0
    exact ⟨⟨_, lowerNoiseFloor_bottom d hn, rfl⟩, by decide,
      fun e => setNoiseFloor_rejects e _ (Or.inl (by decide))⟩

theorem noiseFloor_step_witness :
    (∃ d1, raiseNoiseFloor zeroDevice = some (min (0 + 1) 7, d1) ∧
        (getNoiseFloor d1).map Prod.fst = some (min (0 + 1) 7)) ∧
    (∃ d1, lowerNoiseFloor zeroDevice = some (0, d1) ∧ d1.regs = zeroDevice.regs) ∧
    (∃ d1, raiseNoiseFloor (filledDevice 0x70) = some (7, d1) ∧
        d1.regs = (filledDevice 0x70).regs) :=
  ⟨(noiseFloor_step zeroDevice 0 (by decide)).1,
   ((noiseFloor_step zeroDevice 0 (by decide)).2.2.2 rfl).1,
   (noiseFloor_step (filledDevice 0x70) 7 (by decide)).2.2.1 rfl⟩

/-! ## Strike threshold -/

theorem getShift_strikes : _getShift 0xCF = some 0 := by decide

theorem getMinStrikes_eq (d : Device) :
    getMinStrikes d =
      some (decodeStrikes (extractField (d.regs 0x02).val 0xCF 0), afterRead d 0x02) := by
  unfold getMinStrikes
  rw [registerRead_eq d 0x02 0xCF 0 getShift_strikes]
  simp only [decodeStrikes]
  split <;> rfl

theorem strikes_fits : ∀ c < 4, ((((c <<< 0) &&& 0xCF) % 256) >>> 0) % 256 = c := by
  decide

theorem strikes_after_write (d : Device) (c : Nat) (hc : c < 4) :
    extractField ((afterWrite d 0x02 0xCF 0 c).regs 0x02).val 0xCF 0 = c := by
  simp only [afterWrite, if_true]
  rw [extractField_mergeByte _ 0xCF 0 c (by decide)]
  exact strikes_fits c hc

theorem setMinStrikes_tail (d : Device) (c : Nat) (hc : c < 4) :
    (match _registerWrite d 0x02 0xCF c with
      | none => none
      | some d1 =>
        match getMinStrikes d1 with
        | none => none
        | some (v, d2) => some (decide (v = c), d2)) =
      some (decide (decodeStrikes c = c), afterRead (afterWrite d 0x02 0xCF 0 c) 0x02) := by
  rw [registerWrite_eq d 0x02 0xCF c 0 getShift_strikes]
  simp only [getMinStrikes_eq, strikes_after_write d c hc]

theorem setMinStrikes_valid (d : Device) :
    setMinStrikes d 1 = some (false, afterRead (afterWrite d 0x02 0xCF 0 0) 0x02) ∧
    setMinStrikes d 5 = some (false, afterRead (afterWrite d 0x02 0xCF 0 1) 0x02) ∧
    setMinStrikes d 9 = some (false, afterRead (afterWrite d 0x02 0xCF 0 2) 0x02) ∧
    setMinStrikes d 16 = some (false, afterRead (afterWrite d 0x02 0xCF 0 3) 0x02) := by
  refine ⟨?_, ?_, ?_, ?_⟩
  · exact (setMinStrikes_tail d 0 (by decide)).trans rfl
  · exact (setMinStrikes_tail d 1 (by decide)).trans rfl
  · exact (setMinStrikes_tail d 2 (by decide)).trans rfl
  · exact (setMinStrikes_tail d 3 (by decide)).trans rfl

/-- C6: on the simulated store, `setMinStrikes(k)` for each `k` of 1, 5, 9, 16 returns
false, whatever the registers held: it compares the count decoded by `getMinStrikes()`
(1, 5, 9 or 16) with the field code it wrote (0, 1, 2 or 3).  In particular
`setMinStrikes(1)` on a chip whose registers hold zero returns false. -/
theorem setMinStrikes_valid_returns_false :
    (∀ d : Device,
      (setMinStrikes d 1).map Prod.fst = some false ∧
      (setMinStrikes d 5).map Prod.fst = some false ∧
      (setMinStrikes d 9).map Prod.fst = some false ∧
      (setMinStrikes d 16).map Prod.fst = some false) ∧
    (setMinStrikes zeroDevice 1).map Prod.fst = some false := by
  have key : ∀ d : Device,
      (setMinStrikes d 1).map Prod.fst = some false ∧
      (setMinStrikes d 5).map Prod.fst = some false ∧
      (setMinStrikes d 9).map Prod.fst = some false ∧
      (setMinStrikes d 16).map Prod.fst = some false := by
    intro d
    obtain ⟨h1, h5, h9, h16⟩ := setMinStrikes_valid d
    rw [h1, h5, h9, h16]
    exact ⟨rfl, rfl, rfl, rfl⟩
  exact ⟨key, (key zeroDevice).1⟩

/-- C7: round trip of the strike threshold on the simulated store: for every `k` of 1,
5, 9, 16 and every prior register content, `getMinStrikes()` called after
`setMinStrikes(k)` returns `k`. -/
theorem minStrikes_round_trip (d : Device) (k : Int)
    (hk : k = 1 ∨ k = 5 ∨ k = 9 ∨ k = 16) :
    (setMinStrikes d k).bind (fun r => (getMinStrikes r.2).map (fun q => (q.1 : Int)))
      = some k := by
  obtain ⟨h1, h5, h9, h16⟩ := setMinStrikes_valid d
  rcases hk with rfl | rfl | rfl | rfl
  · rw [h1]
    simp only [Option.some_bind, getMinStrikes_eq, Option.map_some']
    have h := strikes_after_write d 0 (by decide)
    simp only [afterRead, Device.emit] at h ⊢
    rw [h]
    rfl
  · rw [h5]
    simp only [Option.some_bind, getMinStrikes_eq, Option.map_some']
    have h := strikes_after_write d 1 (by decide)
    simp only [afterRead, Device.emit] at h ⊢
    rw [h]
    rfl
  · rw [h9]
    simp only [Option.some_bind, getMinStrikes_eq, Option.map_some']
    have h := strikes_after_write d 2 (by decide)
    simp only [afterRead, Device.emit] at h ⊢
    rw [h]
    rfl
  · rw [h16]
    simp only [Option.some_bind, getMinStrikes_eq, Option.map_some']
    have h := strikes_after_write d 3 (by decide)
    simp only [afterRead, Device.emit] at h ⊢
    rw [h]
    rfl

theorem minStrikes_round_trip_witness :
    (setMinStrikes (filledDevice 0xFF) 9).bind
      (fun r => (getMinStrikes r.2).map (fun q => (q.1 : Int))) = some 9 :=
  minStrikes_round_trip (filledDevice 0xFF) 9 (by decide)

/-- C8: for every `int k` other than 1, 5, 9 and 16, `setMinStrikes(k)` returns false
and leaves the handle, the chip and the trace exactly as they were: no bus transaction
is issued, the register store and the interrupt-pending flag are unchanged. -/
theorem setMinStrikes_rejects (d : Device) (k : Int)
    (hk : k ≠ 1 ∧ k ≠ 5 ∧ k ≠ 9 ∧ k ≠ 16) :
    ∃ d1, setMinStrikes d k = some (false, d1) ∧ d1 = d ∧ d1.trace = d.trace ∧
      d1.regs = d.regs ∧ d1._interruptWaiting = d._interruptWaiting := by
  obtain ⟨h1, h5, h9, h16⟩ := hk
  refine ⟨d, ?_, rfl, rfl, rfl, rfl⟩
  unfold setMinStrikes
  simp only [if_neg h1, if_neg h5, if_neg h9, if_neg h16]

theorem setMinStrikes_rejects_witness :
    ∃ d1, setMinStrikes zeroDevice 2 = some (false, d1) ∧ d1 = zeroDevice ∧
      d1.trace = zeroDevice.trace ∧ d1.regs = zeroDevice.regs ∧
      d1._interruptWaiting = zeroDevice._interruptWaiting :=
  setMinStrikes_rejects zeroDevice 2 (by decide)

/-! ## Interrupt latch and construction -/

theorem getShift_cause : _getShift 0x0F = some 0 := by decide

theorem getShift_display : _getShift 0xE0 = some 5 := by decide

theorem getInterrupt_eq (d : Device) :
    getInterrupt d =
      some (extractField (d.regs 0x03).val 0x0F 0,
        afterRead (Device.emit
          { d.emit [Event.storeInterruptWaiting false] with _interruptWaiting := false }
          [Event.delay 3]) 0x03) := by
  unfold getInterrupt
  exact registerRead_eq _ 0x03 0x0F 0 getShift_cause

theorem handleInterrupt_iterate_flag (d : Device) (n : Nat) :
    (_handleInterrupt^[n + 1] d)._interruptWaiting = true := by
  rw [Function.iterate_succ_apply']
  rfl

theorem begin_clears_flag (d : Device) :
    ∃ d1, begin d = some d1 ∧ d1._interruptWaiting = false := by
  unfold begin
  simp only [registerWrite_eq _ 0x08 0xE0 0x00 5 getShift_display]
  exact ⟨_, rfl, rfl⟩

/-- C9: one-bit event latch.  From every handle state, after `_handleInterrupt` has run
`n + 1` times `waitingInterrupt()` returns true; `waitingInterrupt()` leaves the handle
as it was, so a second call gives the same answer; and after one `getInterrupt()`
following those `n + 1` edges `waitingInterrupt()` returns false, whatever `n` is. -/
theorem interrupt_latch (d : Device) (n : Nat) :
    (waitingInterrupt (_handleInterrupt^[n + 1] d)).1 = true ∧
    (waitingInterrupt d).2 = d ∧
    (waitingInterrupt (waitingInterrupt d).2).1 = (waitingInterrupt d).1 ∧
    ∃ code d1, getInterrupt (_handleInterrupt^[n + 1] d) = some (code, d1) ∧
      (waitingInterrupt d1).1 = false := by
  refine ⟨handleInterrupt_iterate_flag d n, rfl, rfl, _, _, getInterrupt_eq _, rfl⟩

/-- C10: the constructor assigns the address and the pin and never writes the
interrupt-pending flag, so right after construction `waitingInterrupt()` answers with
whatever the storage of the object held: for a handle built in storage whose flag byte
was set it answers true before `begin()` is called, although no interrupt has occurred.
The flag is false after construction only when the storage was zeroed beforehand. -/
theorem construct_keeps_storage_flag :
    (waitingInterrupt (construct true (fun _ => 0) false 0 2)).1 = true ∧
    (construct true (fun _ => 0) false 0 2).trace = [] ∧
    (∀ (storage : Bool) (regs : Nat → Fin 256) (wireEnabled : Bool) (deviceAddress : Nat)
        (intPin : Int),
        (waitingInterrupt (construct storage regs wireEnabled deviceAddress intPin)).1
          = storage) ∧
    ¬ (∀ (storage : Bool) (regs : Nat → Fin 256) (wireEnabled : Bool) (deviceAddress : Nat)
        (intPin : Int),
        (waitingInterrupt (construct storage regs wireEnabled deviceAddress intPin)).1
          = false) := by
  refine ⟨rfl, rfl, fun _ _ _ _ _ => rfl, ?_⟩
  intro h
  exact Bool.noConfusion (h true (fun _ => 0) false 0 2)

/-! ## Plain reads: interrupt cause, distance, strike code -/

theorem getShift_distance : _getShift 0x3F = some 0 := by decide

set_option maxRecDepth 100000 in
theorem extract_cause : ∀ c < 256, extractField c 0x0F 0 = c &&& 0x0F := by
  decide

set_option maxRecDepth 100000 in
theorem extract_distance :
    ∀ c < 256, extractField c 0x3F 0 = c &&& 0x3F ∧
      (c &&& 0x3F = 0x3F ↔ ∀ i < 6, c.testBit i = true) := by
  decide

set_option maxRecDepth 100000 in
theorem extract_strikes : ∀ c < 256, extractField c 0xCF 0 = c &&& 0xCF := by
  decide

/-- C11: for every register store `getInterrupt()` returns the low four bits of
register 0x03 and leaves every register as it was.  The events it adds to the trace
are, in this order: the store of false to the pending flag, a delay of 3 ms, and then
the read transaction of register 0x03 (address phase without stop, one byte requested
and read); so the clearing of the flag and the delay both come before the bus read. -/
theorem getInterrupt_contract (d : Device) :
    ∃ d1, getInterrupt d = some ((d.regs 0x03).val &&& 0x0F, d1) ∧
      d1.regs = d.regs ∧
      d1.trace = d.trace ++
        [Event.storeInterruptWaiting false, Event.delay 3,
         Event.beginTransmission d._i2caddr, Event.write 0x03, Event.endTransmission false,
         Event.requestFrom d._i2caddr 1, Event.read] ∧
      d1._interruptWaiting = false := by
  rw [getInterrupt_eq, extract_cause _ (d.regs 0x03).isLt]
  refine ⟨_, rfl, rfl, ?_, rfl⟩
  simp [afterRead, Device.emit, readEvents]

/-- C12: for every register store `getDistance()` returns register 0x07 masked with
0x3F, with no reinterpretation, and changes neither the store nor the pending flag; the
result is 0x3F exactly when bits 0 to 5 of register 0x07 are all set, whatever bits 6
and 7 hold. -/
theorem getDistance_passthrough (d : Device) :
    ∃ d1, getDistance d = some ((d.regs 0x07).val &&& 0x3F, d1) ∧
      d1.regs = d.regs ∧ d1._interruptWaiting = d._interruptWaiting ∧
      ((d.regs 0x07).val &&& 0x3F = 0x3F ↔ ∀ i < 6, (d.regs 0x07).val.testBit i = true) := by
  obtain ⟨hx, hiff⟩ := extract_distance _ (d.regs 0x07).isLt
  refine ⟨afterRead d 0x07, ?_, rfl, rfl, hiff⟩
  unfold getDistance
  rw [registerRead_eq d 0x07 0x3F 0 getShift_distance, hx]

/-- C17: for every register store `getMinStrikes()` returns 1, 5, 9 or 16 when register
0x02 masked with 0xCF equals 0, 1, 2 or 3, and 255 for every other masked value; the
result always lies in {1, 5, 9, 16, 255}. -/
theorem getMinStrikes_decoding (d : Device) :
    ∃ v d1, getMinStrikes d = some (v, d1) ∧
      v = (if (d.regs 0x02).val &&& 0xCF = 0 then 1
        else if (d.regs 0x02).val &&& 0xCF = 1 then 5
        else if (d.regs 0x02).val &&& 0xCF = 2 then 9
        else if (d.regs 0x02).val &&& 0xCF = 3 then 16
        else 255) ∧
      (v = 1 ∨ v = 5 ∨ v = 9 ∨ v = 16 ∨ v = 255) := by
  refine ⟨_, _, getMinStrikes_eq d, ?_⟩
  rw [extract_strikes _ (d.regs 0x02).isLt]
  generalize (d.regs 0x02).val &&& 0xCF = c
  unfold decodeStrikes
  constructor
  · split <;> first | rfl | simp_all
  · split <;> simp

/-! ## Boolean settings -/

theorem getShift_gain : _getShift 0xC1 = some 0 := by decide

theorem getShift_bit5 : _getShift 0x20 = some 5 := by decide

theorem getShift_bit7 : _getShift 0x80 = some 7 := by decide

theorem getIndoors_eq (d : Device) :
    getIndoors d =
      some (decide (extractField (d.regs 0x00).val 0x20 5 ≠ 0), afterRead d 0x00) := by
  unfold getIndoors
  rw [registerRead_eq d 0x00 0x20 5 getShift_bit5]

set_option maxRecDepth 100000 in
theorem gain_bytes :
    ∀ c < 256, mergeByte c 0xC1 0 0x12 = c &&& 0x3E ∧ mergeByte c 0xC1 0 0x0E = c &&& 0x3E ∧
      decide (extractField (c &&& 0x3E) 0x20 5 ≠ 0) = c.testBit 5 := by
  decide

theorem setIndoors_eq (d : Device) (indoors : Bool) :
    setIndoors d indoors =
      some (decide ((d.regs 0x00).val.testBit 5 = indoors),
        afterRead (afterWrite d 0x00 0xC1 0 (if indoors then 0x12 else 0x0E)) 0x00) ∧
    ((afterWrite d 0x00 0xC1 0 (if indoors then 0x12 else 0x0E)).regs 0x00).val =
      (d.regs 0x00).val &&& 0x3E := by
  obtain ⟨h12, h0E, hbit⟩ := gain_bytes _ (d.regs 0x00).isLt
  have hreg : ((afterWrite d 0x00 0xC1 0 (if indoors then 0x12 else 0x0E)).regs 0x00).val =
      (d.regs 0x00).val &&& 0x3E := by
    simp only [afterWrite, if_true]
    rw [ofNat_mergeByte_val]
    cases indoors
    · exact h0E
    · exact h12
  refine ⟨?_, hreg⟩
  unfold setIndoors
  have hw : (if indoors = true then _registerWrite d 0x00 0xC1 0x12
      else _registerWrite d 0x00 0xC1 0x0E) =
      some (afterWrite d 0x00 0xC1 0 (if indoors then 0x12 else 0x0E)) := by
    cases indoors
    · exact registerWrite_eq d 0x00 0xC1 0x0E 0 getShift_gain
    · exact registerWrite_eq d 0x00 0xC1 0x12 0 getShift_gain
  rw [hw]
  simp only [getIndoors_eq, hreg, hbit]

/-- C20: actual effect of `setIndoors` on the simulated store.  For every prior byte
`r` of register 0x00 and every boolean `b`, `setIndoors(b)` stores `r & 0x3E` in register
0x00 (bits 7, 6 and 0 cleared, bits 1 to 5 kept) and leaves the other registers alone,
so `setIndoors(true)` and `setIndoors(false)` give the same register store, and the
boolean returned is true exactly when bit 5 of `r` already equalled `b`. -/
theorem setIndoors_actual_effect (d : Device) (b : Bool) :
    (∃ d1, setIndoors d b = some (decide ((d.regs 0x00).val.testBit 5 = b), d1) ∧
      (d1.regs 0x00).val = (d.regs 0x00).val &&& 0x3E ∧
      ∀ r, r ≠ 0x00 → d1.regs r = d.regs r) ∧
    (setIndoors d true).map (fun r => r.2.regs) =
      (setIndoors d false).map (fun r => r.2.regs) := by
  constructor
  · obtain ⟨h, hreg⟩ := setIndoors_eq d b
    refine ⟨_, h, hreg, ?_⟩
    intro r hr
    simp only [afterRead, Device.emit, afterWrite, if_neg hr]
  · obtain ⟨h12, h0E, -⟩ := gain_bytes _ (d.regs 0x00).isLt
    have hregs : (afterWrite d 0x00 0xC1 0 0x12).regs = (afterWrite d 0x00 0xC1 0 0x0E).regs := by
      funext r
      simp only [afterWrite]
      rw [h12, h0E]
    rw [(setIndoors_eq d true).1, (setIndoors_eq d false).1]
    exact congrArg some hregs

/-- C13: `setIndoors(true)` on a chip whose registers hold zero returns false and
`getIndoors()` afterwards still returns false; `setIndoors(false)` on a chip whose
registers hold 0xFF returns false and `getIndoors()` afterwards still returns true.
For every store, the answer of `getIndoors()` after `setIndoors(b)` is bit 5 of the
byte register 0x00 held before, not `b`. -/
theorem setIndoors_does_not_set :
    (setIndoors zeroDevice true).map Prod.fst = some false ∧
    (setIndoors zeroDevice true).bind (fun r => (getIndoors r.2).map Prod.fst) = some false ∧
    (setIndoors (filledDevice 0xFF) false).map Prod.fst = some false ∧
    (setIndoors (filledDevice 0xFF) false).bind (fun r => (getIndoors r.2).map Prod.fst)
      = some true ∧
    ∀ (d : Device) (b : Bool),
      (setIndoors d b).bind (fun r => (getIndoors r.2).map Prod.fst)
        = some ((d.regs 0x00).val.testBit 5) := by
  have key : ∀ (d : Device) (b : Bool),
      (setIndoors d b).bind (fun r => (getIndoors r.2).map Prod.fst)
        = some ((d.regs 0x00).val.testBit 5) := by
    intro d b
    obtain ⟨h, hreg⟩ := setIndoors_eq d b
    obtain ⟨-, -, hbit⟩ := gain_bytes _ (d.regs 0x00).isLt
    rw [h]
    simp only [Option.some_bind, getIndoors_eq, Option.map_some']
    simp only [afterRead, Device.emit] at hreg ⊢
    simp only [hreg, hbit]
  refine ⟨?_, ?_, ?_, ?_, key⟩
  · rw [(setIndoors_eq zeroDevice true).1]; rfl
  · rw [key zeroDevice true]; rfl
  · rw [(setIndoors_eq (filledDevice 0xFF) false).1]; rfl
  · rw [key (filledDevice 0xFF) false]; rfl

theorem bit5_fits :
    ∀ b : Bool, decide (((((ofBool b <<< 5) &&& 0x20) % 256) >>> 5) % 256 ≠ 0) = b := by
  decide

theorem bit7_fits :
    ∀ b : Bool, decide (((((ofBool b <<< 7) &&& 0x80) % 256) >>> 7) % 256 ≠ 0) = b := by
  decide

theorem getDispLco_eq (d : Device) :
    getDispLco d =
      some (decide (extractField (d.regs 0x08).val 0x80 7 ≠ 0), afterRead d 0x08) := by
  unfold getDispLco
  rw [registerRead_eq d 0x08 0x80 7 getShift_bit7]

theorem getMaskDisturbers_eq (d : Device) :
    getMaskDisturbers d =
      some (decide (extractField (d.regs 0x03).val 0x20 5 ≠ 0), afterRead d 0x03) := by
  unfold getMaskDisturbers
  rw [registerRead_eq d 0x03 0x20 5 getShift_bit5]

theorem disturber_after_write (d : Device) (b : Bool) :
    decide (extractField ((afterWrite d 0x03 0x20 5 (ofBool b)).regs 0x03).val 0x20 5 ≠ 0)
      = b := by
  simp only [afterWrite, if_true]
  simp only [extractField_mergeByte _ 0x20 5 (ofBool b) (by decide)]
  exact bit5_fits b

theorem dispLco_after_write (d : Device) (b : Bool) :
    decide (extractField ((afterWrite d 0x08 0x80 7 (ofBool b)).regs 0x08).val 0x80 7 ≠ 0)
      = b := by
  simp only [afterWrite, if_true]
  simp only [extractField_mergeByte _ 0x80 7 (ofBool b) (by decide)]
  exact bit7_fits b

theorem setMaskDisturbers_eq (d : Device) (b : Bool) :
    setMaskDisturbers d b =
      some (true, afterRead (afterWrite d 0x03 0x20 5 (ofBool b)) 0x03) := by
  unfold setMaskDisturbers
  rw [registerWrite_eq d 0x03 0x20 (ofBool b) 5 getShift_bit5]
  simp only [registerRead_eq _ 0x03 0x20 5 getShift_bit5, disturber_after_write d b,
    decide_True]

theorem setDispLco_eq (d : Device) (b : Bool) :
    setDispLco d b = some (true, afterRead (afterWrite d 0x08 0x80 7 (ofBool b)) 0x08) := by
  unfold setDispLco
  rw [registerWrite_eq d 0x08 0x80 (ofBool b) 7 getShift_bit7]
  simp only [getDispLco_eq, dispLco_after_write d b, decide_True]

/-- C14: identity-encoded boolean settings on the simulated store.  For every prior
register content and every boolean `b`, `setMaskDisturbers(b)` returns true,
`getMaskDisturbers()` then returns `b`, register 0x03 keeps every bit other than bit 5
and the other registers are unchanged; likewise `setDispLco(b)` returns true,
`getDispLco()` then returns `b`, register 0x08 keeps every bit other than bit 7 and the
other registers are unchanged. -/
theorem boolean_settings_round_trip (d : Device) (b : Bool) :
    (∃ d1, setMaskDisturbers d b = some (true, d1) ∧
      (getMaskDisturbers d1).map Prod.fst = some b ∧
      (d1.regs 0x03).val &&& 0xDF = (d.regs 0x03).val &&& 0xDF ∧
      ∀ r, r ≠ 0x03 → d1.regs r = d.regs r) ∧
    (∃ d1, setDispLco d b = some (true, d1) ∧
      (getDispLco d1).map Prod.fst = some b ∧
      (d1.regs 0x08).val &&& 0x7F = (d.regs 0x08).val &&& 0x7F ∧
      ∀ r, r ≠ 0x08 → d1.regs r = d.regs r) := by
  constructor
  · refine ⟨_, setMaskDisturbers_eq d b, ?_, ?_, ?_⟩
    · rw [getMaskDisturbers_eq]
      simp only [Option.map_some']
      have h := disturber_after_write d b
      simp only [afterRead, Device.emit] at h ⊢
      simp only [h]
    · show ((afterWrite d 0x03 0x20 5 (ofBool b)).regs 0x03).val &&& (0xFF ^^^ 0x20) = _
      simp only [afterWrite, if_true]
      rw [ofNat_mergeByte_val]
      exact mergeByte_and_compl _ 0x20 5 _ (d.regs 0x03).isLt (by decide)
    · intro r hr
      simp only [afterRead, Device.emit, afterWrite, if_neg hr]
  · refine ⟨_, setDispLco_eq d b, ?_, ?_, ?_⟩
    · rw [getDispLco_eq]
      simp only [Option.map_some']
      have h := dispLco_after_write d b
      simp only [afterRead, Device.emit] at h ⊢
      simp only [h]
    · show ((afterWrite d 0x08 0x80 7 (ofBool b)).regs 0x08).val &&& (0xFF ^^^ 0x80) = _
      simp only [afterWrite, if_true]
      rw [ofNat_mergeByte_val]
      exact mergeByte_and_compl _ 0x80 7 _ (d.regs 0x08).isLt (by decide)
    · intro r hr
      simp only [afterRead, Device.emit, afterWrite, if_neg hr]

/-! ## Calibration -/

theorem getShift_tuning : _getShift 0x0F = some 0 := by decide

theorem getShift_full : _getShift 0xFF = some 0 := by decide

theorem mergeByte_full (c value : Nat) (hv : value < 256) : mergeByte c 0xFF 0 value = value := by
  apply Nat.eq_of_testBit_eq
  intro i
  rw [testBit_mergeByte c 0xFF 0 value i (by decide)]
  by_cases hi : i < 8
  · have h255 : (255 : Nat) = 2 ^ 8 - 1 := rfl
    rw [h255, Nat.testBit_two_pow_sub_one]
    simp [hi]
  · rw [testBit_byte_high 255 i (by decide) (by omega),
      testBit_byte_high value i hv (by omega)]
    simp only [Bool.false_eq_true, if_false]
    exact testBit_byte_high _ i (Nat.mod_lt _ (by decide)) (by omega)

theorem calibrate_eq (d : Device) (t : Nat) (ht : t < 16) :
    calibrate d t = some ((calStage4 d t).emit [Event.interrupts]) := by
  have hguard : t < 0x10 ∧ t ≥ 0 := ⟨ht, Nat.zero_le t⟩
  unfold calibrate
  rw [if_pos hguard]
  simp only [_registerWriteByte, registerWrite_eq _ 0x08 0x0F t 0 getShift_tuning,
    registerWrite_eq _ 0x3D 0xFF 0x96 0 getShift_full,
    registerWrite_eq _ 0x08 0x20 1 5 getShift_bit5,
    registerWrite_eq _ 0x08 0x20 0 5 getShift_bit5]
  rfl

theorem calStage4_regs (d : Device) (t : Nat) :
    (calStage4 d t).regs = fun r =>
      if r = 0x08 then Fin.ofNat (calByte (d.regs 0x08).val t)
      else if r = 0x3D then Fin.ofNat (mergeByte (d.regs 0x3D).val 0xFF 0 0x96)
      else d.regs r := by
  funext r
  simp only [calStage4, calStage3, calStage2, calStage1, afterWrite, Device.emit, calByte,
    if_true, ofNat_mergeByte_val]
  by_cases h8 : r = 0x08
  · subst h8
    simp only [if_true]
    have hv : ∀ x : Nat, (Fin.ofNat (mergeByte x 0x0F 0 t) : Fin 256).val
        = mergeByte x 0x0F 0 t := fun x => ofNat_mergeByte_val x 0x0F 0 t
    simp [hv]
  · simp [h8]

set_option maxRecDepth 100000 in
theorem calByte_facts :
    ∀ c < 256, ∀ t < 16,
      calByte c t &&& 0x0F = t ∧ calByte c t &&& 0x20 = 0 ∧
      calByte c t &&& 0xD0 = c &&& 0xD0 ∧
      extractField (calByte c t) 0x0F 0 = t ∧ extractField (calByte c t) 0x20 5 = 0 := by
  decide

/-- C15: for every tuning value `t` with `16 ≤ t ≤ 255`, `calibrate(t)` is a no-op: it
returns with handle, chip and trace exactly as they were, so no bus transaction, no
delay and no `noInterrupts()` call is issued, and the register store and the
interrupt-pending flag are unchanged. -/
theorem calibrate_out_of_range (d : Device) (t : Nat) (h16 : 16 ≤ t) (h255 : t ≤ 255) :
    ∃ d1, calibrate d t = some d1 ∧ d1 = d ∧ d1.trace = d.trace ∧ d1.regs = d.regs ∧
      d1._interruptWaiting = d._interruptWaiting := by
  have hguard : ¬ (t < 0x10 ∧ t ≥ 0) := by omega
  refine ⟨d, ?_, rfl, rfl, rfl, rfl⟩
  unfold calibrate
  rw [if_neg hguard]

theorem calibrate_out_of_range_witness :
    ∃ d1, calibrate zeroDevice 16 = some d1 ∧ d1 = zeroDevice ∧ d1.trace = zeroDevice.trace ∧
      d1.regs = zeroDevice.regs ∧ d1._interruptWaiting = zeroDevice._interruptWaiting :=
  calibrate_out_of_range zeroDevice 16 (by decide) (by decide)

/-- C16: for every tuning value `t` in 0..15 and every prior register store,
`calibrate(t)` returns and afterwards the tuning-capacitor field reads back `t`
(register 0x08 masked with 0x0F is `t`), the trigger field 0x08/0x20 is 0, bits 7, 6 and
4 of register 0x08 are as before, register 0x3D holds 0x96, every other register is
unchanged and the interrupt-pending flag is unchanged. -/
theorem calibrate_final_state (d : Device) (t : Nat) (ht : t < 16) :
    ∃ d1, calibrate d t = some d1 ∧
      (d1.regs 0x08).val &&& 0x0F = t ∧
      (_registerRead d1 0x08 0x0F).map Prod.fst = some t ∧
      (d1.regs 0x08).val &&& 0x20 = 0 ∧
      (_registerRead d1 0x08 0x20).map Prod.fst = some 0 ∧
      (d1.regs 0x08).val &&& 0xD0 = (d.regs 0x08).val &&& 0xD0 ∧
      (d1.regs 0x3D).val = 0x96 ∧
      (∀ r, r ≠ 0x08 → r ≠ 0x3D → d1.regs r = d.regs r) ∧
      d1._interruptWaiting = d._interruptWaiting := by
  obtain ⟨hlow, htrig, hkeep, hxlow, hxtrig⟩ := calByte_facts _ (d.regs 0x08).isLt t ht
  have hregs : ((calStage4 d t).emit [Event.interrupts]).regs = fun r =>
      if r = 0x08 then Fin.ofNat (calByte (d.regs 0x08).val t)
      else if r = 0x3D then Fin.ofNat (mergeByte (d.regs 0x3D).val 0xFF 0 0x96)
      else d.regs r := calStage4_regs d t
  have h8 : (((calStage4 d t).emit [Event.interrupts]).regs 0x08).val
      = calByte (d.regs 0x08).val t := by
    rw [hregs]
    simp only [if_true]
    exact ofNat_mergeByte_val _ _ _ _
  have h3D : (((calStage4 d t).emit [Event.interrupts]).regs 0x3D).val = 0x96 := by
    rw [hregs]
    have hne : ¬ ((0x3D : Nat) = 0x08) := by decide
    simp only [if_neg hne, if_true]
    rw [ofNat_mergeByte_val]
    exact mergeByte_full _ 0x96 (by decide)
  have hflag : ((calStage4 d t).emit [Event.interrupts])._interruptWaiting
      = d._interruptWaiting := by
    simp only [calStage4, calStage3, calStage2, calStage1, afterWrite, Device.emit]
  refine ⟨_, calibrate_eq d t ht, ?_, ?_, ?_, ?_, ?_, h3D, ?_, hflag⟩
  · rw [h8]; exact hlow
  · rw [registerRead_eq _ 0x08 0x0F 0 getShift_tuning, Option.map_some', h8]
    exact congrArg some hxlow
  · rw [h8]; exact htrig
  · rw [registerRead_eq _ 0x08 0x20 5 getShift_bit5, Option.map_some', h8]
    exact congrArg some hxtrig
  · rw [h8]; exact hkeep
  · intro r hr8 hr3D
    rw [hregs]
    simp only [if_neg hr8, if_neg hr3D]

theorem calibrate_final_state_witness :
    ∃ d1, calibrate (filledDevice 0xFF) 8 = some d1 ∧
      (d1.regs 0x08).val &&& 0x0F = 8 ∧
      (_registerRead d1 0x08 0x0F).map Prod.fst = some 8 ∧
      (d1.regs 0x08).val &&& 0x20 = 0 ∧
      (_registerRead d1 0x08 0x20).map Prod.fst = some 0 ∧
      (d1.regs 0x08).val &&& 0xD0 = ((filledDevice 0xFF).regs 0x08).val &&& 0xD0 ∧
      (d1.regs 0x3D).val = 0x96 ∧
      (∀ r, r ≠ 0x08 → r ≠ 0x3D → d1.regs r = (filledDevice 0xFF).regs r) ∧
      d1._interruptWaiting = (filledDevice 0xFF)._interruptWaiting :=
  calibrate_final_state (filledDevice 0xFF) 8 (by decide)

theorem calibrate_trace_zero :
    (calibrate zeroDevice 8).map Device.trace = some
      [Event.noInterrupts,
       Event.beginTransmission 0, Event.write 0x08, Event.endTransmission false,
       Event.requestFrom 0 1, Event.read,
       Event.beginTransmission 0, Event.write 0x08, Event.write 0x08, Event.endTransmission true,
       Event.delay 2,
       Event.beginTransmission 0, Event.write 0x3D, Event.endTransmission false,
       Event.requestFrom 0 1, Event.read,
       Event.beginTransmission 0, Event.write 0x3D, Event.write 0x96, Event.endTransmission true,
       Event.delay 2,
       Event.beginTransmission 0, Event.write 0x08, Event.endTransmission false,
       Event.requestFrom 0 1, Event.read,
       Event.beginTransmission 0, Event.write 0x08, Event.write 0x28, Event.endTransmission true,
       Event.delay 2,
       Event.beginTransmission 0, Event.write 0x08, Event.endTransmission false,
       Event.requestFrom 0 1, Event.read,
       Event.beginTransmission 0, Event.write 0x08, Event.write 0x08, Event.endTransmission true,
       Event.interrupts] := by
  rfl

theorem calibrateSpec_eq (w1 w2 w3 : Nat) (d : Device) (t : Nat) (ht : t < 16) :
    calibrateSpec w1 w2 w3 d t = some
      (((afterWrite ((afterWrite ((afterWrite (calStage1 d t) 0x3D 0xFF 0 0x96).emit
        [Event.delay w1]) 0x08 0x20 5 1).emit [Event.delay w2]) 0x08 0x20 5 0).emit
        [Event.delay w3]).emit [Event.interrupts]) := by
  have hguard : t < 0x10 := ht
  unfold calibrateSpec
  rw [if_pos hguard]
  simp only [_registerWriteByte, registerWrite_eq _ 0x08 0x0F t 0 getShift_tuning,
    registerWrite_eq _ 0x3D 0xFF 0x96 0 getShift_full,
    registerWrite_eq _ 0x08 0x20 1 5 getShift_bit5,
    registerWrite_eq _ 0x08 0x20 0 5 getShift_bit5]
  rfl

theorem calibrateSpec_trace_zero (w1 w2 w3 : Nat) :
    ((calibrateSpec w1 w2 w3 zeroDevice 8).map Device.trace).bind (fun tr => tr.get? 10)
      = some (Event.beginTransmission 0) := by
  rw [calibrateSpec_eq w1 w2 w3 zeroDevice 8 (by decide)]
  rfl

theorem calibrate_trace_eq (d : Device) (t : Nat) :
    ((calStage4 d t).emit [Event.interrupts]).trace =
      d.trace ++ ([Event.noInterrupts] ++ readEvents d 0x08 ++
        writeEvents d 0x08 (mergeByte (d.regs 0x08).val 0x0F 0 t) ++
        [Event.delay 2] ++ readEvents d 0x3D ++
        writeEvents d 0x3D (mergeByte (d.regs 0x3D).val 0xFF 0 0x96) ++
        [Event.delay 2] ++ readEvents d 0x08 ++
        writeEvents d 0x08
          (mergeByte (Fin.ofNat (mergeByte (d.regs 0x08).val 0x0F 0 t) : Fin 256).val 0x20 5 1) ++
        [Event.delay 2] ++ readEvents d 0x08 ++
        writeEvents d 0x08
          (mergeByte (Fin.ofNat (mergeByte (Fin.ofNat
            (mergeByte (d.regs 0x08).val 0x0F 0 t) : Fin 256).val 0x20 5 1) : Fin 256).val
            0x20 5 0) ++
        [Event.interrupts]) := by
  have hne : ¬ ((0x3D : Nat) = 0x08) := by decide
  have hne2 : ¬ ((0x08 : Nat) = 0x3D) := by decide
  simp only [calStage4, calStage3, calStage2, calStage1, afterWrite, Device.emit, readEvents,
    writeEvents, if_true, if_neg hne, if_neg hne2, List.append_assoc]

/-- C18, as stated, fails: for `calibrate(8)` on a chip whose registers hold zero, the
event after the tuning-capacitor write (index 10) is a wait of 2 ms, and the last two
events are the end of the write that sets the trigger low and `interrupts()`, with no
wait between them; so the trace is not the sequence of the specification, whatever
waits of at least 2 ms are put there. -/
theorem calibrate_waits_misplaced :
    ((calibrate zeroDevice 8).map Device.trace).bind (fun tr => tr.get? 10)
      = some (Event.delay 2) ∧
    ((calibrate zeroDevice 8).map Device.trace).bind (fun tr => tr.get? 39)
      = some (Event.endTransmission true) ∧
    ((calibrate zeroDevice 8).map Device.trace).bind (fun tr => tr.get? 40)
      = some Event.interrupts ∧
    ¬ ∃ w1 w2 w3, 2 ≤ w1 ∧ 2 ≤ w2 ∧ 2 ≤ w3 ∧
        (calibrate zeroDevice 8).map Device.trace =
          (calibrateSpec w1 w2 w3 zeroDevice 8).map Device.trace := by
  refine ⟨?_, ?_, ?_, ?_⟩
  · rw [calibrate_trace_zero]; rfl
  · rw [calibrate_trace_zero]; rfl
  · rw [calibrate_trace_zero]; rfl
  · rintro ⟨w1, w2, w3, -, -, -, h⟩
    have h10 := calibrateSpec_trace_zero w1 w2 w3
    rw [← h, calibrate_trace_zero] at h10
    exact absurd h10 (by decide)

/-- C18, amended: for every valid tuning value `t` in 0..15 the events `calibrate(t)`
adds to the trace are, in order: disable interrupts; read-modify-write of register 0x08
putting `t` in field 0x0F; wait 2 ms; read and write of register 0x3D with byte 0x96;
wait 2 ms; read-modify-write of register 0x08 setting field 0x20 to 1; wait 2 ms;
read-modify-write of register 0x08 setting field 0x20 to 0; re-enable interrupts.  A
wait separates the tuning-capacitor write from the write to 0x3D, and no wait separates
setting the trigger low from re-enabling interrupts. -/
theorem calibrate_event_order (d : Device) (t : Nat) (ht : t < 16) :
    ∃ d1 b1 b2 b3, calibrate d t = some d1 ∧
      d1.trace = d.trace ++ ([Event.noInterrupts] ++ readEvents d 0x08 ++
        writeEvents d 0x08 b1 ++
        [Event.delay 2] ++ readEvents d 0x3D ++ writeEvents d 0x3D 0x96 ++
        [Event.delay 2] ++ readEvents d 0x08 ++ writeEvents d 0x08 b2 ++
        [Event.delay 2] ++ readEvents d 0x08 ++ writeEvents d 0x08 b3 ++
        [Event.interrupts]) ∧
      b1 &&& 0x0F = t ∧ b2 &&& 0x20 = 0x20 ∧ b3 &&& 0x20 = 0 := by
  have ht4 : ∀ t < 16, (t <<< 0) &&& 0x0F = t := by decide
  refine ⟨_, mergeByte (d.regs 0x08).val 0x0F 0 t,
    mergeByte (Fin.ofNat (mergeByte (d.regs 0x08).val 0x0F 0 t) : Fin 256).val 0x20 5 1,
    mergeByte (Fin.ofNat (mergeByte (Fin.ofNat
      (mergeByte (d.regs 0x08).val 0x0F 0 t) : Fin 256).val 0x20 5 1) : Fin 256).val 0x20 5 0,
    calibrate_eq d t ht, ?_, ?_, ?_, ?_⟩
  · rw [calibrate_trace_eq d t, mergeByte_full _ 0x96 (by decide)]
  · rw [mergeByte_and_mask _ 0x0F 0 t (by decide)]
    exact ht4 t ht
  · rw [mergeByte_and_mask _ 0x20 5 1 (by decide)]
    rfl
  · rw [mergeByte_and_mask _ 0x20 5 0 (by decide)]
    rfl

theorem calibrate_event_order_witness :
    ∃ d1 b1 b2 b3, calibrate zeroDevice 8 = some d1 ∧
      d1.trace = zeroDevice.trace ++ ([Event.noInterrupts] ++ readEvents zeroDevice 0x08 ++
        writeEvents zeroDevice 0x08 b1 ++
        [Event.delay 2] ++ readEvents zeroDevice 0x3D ++ writeEvents zeroDevice 0x3D 0x96 ++
        [Event.delay 2] ++ readEvents zeroDevice 0x08 ++ writeEvents zeroDevice 0x08 b2 ++
        [Event.delay 2] ++ readEvents zeroDevice 0x08 ++ writeEvents zeroDevice 0x08 b3 ++
        [Event.interrupts]) ∧
      b1 &&& 0x0F = 8 ∧ b2 &&& 0x20 = 0x20 ∧ b3 &&& 0x20 = 0 :=
  calibrate_event_order zeroDevice 8 (by decide)

/-- C19, as stated, fails: the bus trace of the full-byte overload, here
`_registerWrite(0x3C, 0x96)` as `reset()` issues it on a chip whose registers hold zero,
starts with a read transaction of the register (one byte is requested and read) before
the two-phase write, so it is not the two-phase write alone. -/
theorem registerWriteByte_reads_first :
    (reset zeroDevice).map Device.trace = some
      [Event.beginTransmission 0, Event.write 0x3C, Event.endTransmission false,
       Event.requestFrom 0 1, Event.read,
       Event.beginTransmission 0, Event.write 0x3C, Event.write 0x96,
       Event.endTransmission true] ∧
    (_registerWriteByte zeroDevice 0x3C 0x96).map Device.trace ≠
      some (zeroDevice.trace ++ writeEvents zeroDevice 0x3C 0x96) ∧
    ∃ d1, _registerWriteByte zeroDevice 0x3C 0x96 = some d1 ∧ Event.read ∈ d1.trace := by
  refine ⟨rfl, by decide, _, rfl, by decide⟩

/-- C19, amended: the full-byte overload `_registerWrite(reg, value)`, used by
`reset()` for register 0x3C and by `calibrate()` for register 0x3D, is the masked write
with mask 0xFF: for every register and byte its bus trace is the read transaction of the
register followed by the two-phase write of the address and the byte `value`, and
afterwards the register holds exactly `value`, whatever it held before, the other
registers being unchanged. -/
theorem registerWriteByte_contract (d : Device) (reg value : Nat) (hv : value < 256) :
    (∃ d1, _registerWriteByte d reg value = some d1 ∧
      d1.trace = d.trace ++ readEvents d reg ++ writeEvents d reg value ∧
      (d1.regs reg).val = value ∧
      ∀ r, r ≠ reg → d1.regs r = d.regs r) ∧
    reset d = _registerWriteByte d 0x3C 0x96 := by
  refine ⟨⟨_, registerWrite_eq d reg 0xFF value 0 getShift_full, ?_, ?_, ?_⟩, rfl⟩
  · simp only [afterWrite, mergeByte_full _ value hv]
  · simp only [afterWrite, if_true]
    rw [ofNat_mergeByte_val]
    exact mergeByte_full _ value hv
  · intro r hr
    simp only [afterWrite, if_neg hr]

theorem registerWriteByte_contract_witness :
    (∃ d1, _registerWriteByte (filledDevice 0xFF) 0x3C 0x96 = some d1 ∧
      d1.trace = (filledDevice 0xFF).trace ++ readEvents (filledDevice 0xFF) 0x3C ++
        writeEvents (filledDevice 0xFF) 0x3C 0x96 ∧
      (d1.regs 0x3C).val = 0x96 ∧
      ∀ r, r ≠ 0x3C → d1.regs r = (filledDevice 0xFF).regs r) ∧
    reset (filledDevice 0xFF) = _registerWriteByte (filledDevice 0xFF) 0x3C 0x96 :=
  registerWriteByte_contract (filledDevice 0xFF) 0x3C 0x96 (by decide)

end AS3935
